import Mathlib

/-!
# Verification of the leettracker date-boundary / streak / sync core

Shallow embedding of the repository's core logic:

* `calculateCurrentStreak`, `calculateLongestStreak`, `upsertTodayResult`
  (src/lib/streaks.ts, timezone-aware revision),
* `checkTodayStatus`, `getAllTodaySubmissions` (src/lib/leetcode.ts,
  timezone-aware revision),
* the per-user sync loop of the sync route (src/app/api/sync/route.ts),
* the room PIN endpoints (POST / PATCH of the rooms route),
* `getSecondsUntilMidnight` (src/lib/timezone.ts).

Calendar dates (`YYYY-MM-DD` strings in the source, manipulated via JS
`Date` day arithmetic, which is exact on such strings) are modelled as
integers counting days; moving to the previous/next day is `- 1` / `+ 1`,
exactly what `setDate(getDate() ± 1)` performs on a date-only value.
-/

/-- A row of the `daily_results` table as returned by the store
(`SELECT *` ordered by `date`).  Metadata columns are kept abstract. -/
structure DailyResultRow where
  date : Int
  did_solve : Bool
  solved_at : Option String
  problem_title : Option String
  problem_slug : Option String
  submission_id : Option String
deriving Repr, DecidableEq

/-- Row constructor with absent metadata, used for concrete instances. -/
def mkRow (d : Int) (s : Bool) : DailyResultRow :=
  ⟨d, s, none, none, none, none⟩

/-- The backwards walk of `calculateCurrentStreak`
(src/lib/streaks.ts lines 55-77 of the timezone-aware revision):

```
for (const result of results) {
    if (!solvedToday && result.date === today) { continue; }
    if (result.date !== currentDate) { break; }
    if (result.did_solve) {
        streak++;
        currentDate := currentDate - 1 day;
    } else { break; }
}
```
-/
def streakWalk (solvedToday : Bool) (today : Int) :
    List DailyResultRow → Int → Nat → Nat
  | [], _, streak => streak
  | r :: rest, currentDate, streak =>
    if !solvedToday && r.date == today then
      streakWalk solvedToday today rest currentDate streak
    else if r.date != currentDate then
      streak
    else if r.did_solve then
      streakWalk solvedToday today rest (currentDate - 1) (streak + 1)
    else
      streak

/-- `calculateCurrentStreak` (src/lib/streaks.ts, timezone-aware revision,
lines 17-80).  `today` is `getDateForTimezone(timezone)`; `results` is the
query result (all rows of the user with `date ≤ today`, descending).
The DB-error early return is not modelled (reads are total here). -/
def calculateCurrentStreak (today : Int) (results : List DailyResultRow) : Nat :=
  if results.isEmpty then 0
  else
    -- const todayResult = results.find(r => r.date === today);
    -- const solvedToday = todayResult?.did_solve === true;
    let todayResult := results.find? (fun r => r.date == today)
    let solvedToday := (todayResult.map (·.did_solve)).getD false
    let start := if solvedToday then today else today - 1
    streakWalk solvedToday today results start 0

/-- The ascending scan of `calculateLongestStreak`
(src/lib/streaks.ts lines 109-136 of the timezone-aware revision).
State: (maxStreak, currentStreak, lastDate). -/
def longestLoop : List DailyResultRow → Nat → Nat → Option Int → Nat
  | [], maxStreak, _, _ => maxStreak
  | r :: rest, maxStreak, currentStreak, lastDate =>
    if r.did_solve then
      let newCur :=
        match lastDate with
        | none => 1
        | some ld => if r.date == ld + 1 then currentStreak + 1 else 1
      longestLoop rest (max maxStreak newCur) newCur (some r.date)
    else
      longestLoop rest maxStreak 0 (some r.date)

/-- `calculateLongestStreak` (src/lib/streaks.ts, timezone-aware revision,
lines 89-140).  `results` is the user's whole history ascending by date. -/
def calculateLongestStreak (results : List DailyResultRow) : Nat :=
  if results.isEmpty then 0
  else longestLoop results 0 0 none

/-- Spec-side formulation of the longest-streak scan: the sequence of
running-counter values, one per row — the counter resets to 0 on any
`solved=false` row, and on a `solved=true` row becomes `previous + 1`
when the row's date is exactly one day after the previous row's date
and resets to 1 otherwise (also on the very first row). -/
def streakCounters : Option Int → Nat → List DailyResultRow → List Nat
  | _, _, [] => []
  | lastDate, counter, r :: rest =>
    let counter' :=
      if r.did_solve then
        match lastDate with
        | none => 1
        | some ld => if r.date == ld + 1 then counter + 1 else 1
      else 0
    counter' :: streakCounters (some r.date) counter' rest

/-- Spec-side longest streak: the maximum counter value observed. -/
def longestStreakSpec (results : List DailyResultRow) : Nat :=
  (streakCounters none 0 results).foldr max 0

/-! ## Result store (`daily_results` table and `upsertTodayResult`) -/

/-- A stored `daily_results` row, including the key columns. -/
structure StoredDaily where
  user_id : String
  date : Int
  did_solve : Bool
  solved_at : Option String
  problem_title : Option String
  problem_slug : Option String
  submission_id : Option String
  updated_at : String
deriving Repr, DecidableEq

/-- The store is the list of rows; `UNIQUE(user_id, date)` is maintained
by `upsertDailyRow`.  Lookup by primary key (`.eq('user_id').eq('date')`,
`maybeSingle`). -/
def getDaily (store : List StoredDaily) (u : String) (d : Int) : Option StoredDaily :=
  store.find? (fun r => r.user_id == u && r.date == d)

/-- Supabase `.upsert(row, { onConflict: 'user_id,date' })`: replace the
row with the same key if present, otherwise append. -/
def upsertDailyRow (store : List StoredDaily) (row : StoredDaily) : List StoredDaily :=
  if store.any (fun r => r.user_id == row.user_id && r.date == row.date) then
    store.map (fun r =>
      if r.user_id == row.user_id && r.date == row.date then row else r)
  else store ++ [row]

/-- `upsertTodayResult` (src/lib/streaks.ts, timezone-aware revision,
lines 172-221).  `today` is `getDateForTimezone(timezone)`; `nowIso` is
`new Date().toISOString()`.  The guard reads the existing row for
`(userId, today)` and returns without writing when it is already
`did_solve = true`:

```
if (!didSolve) {
    const existing = … maybeSingle();
    if (existing?.did_solve === true) { return; }
}
… upsert(row, { onConflict: 'user_id,date' });
```
-/
def upsertTodayResult (store : List StoredDaily) (userId : String) (today : Int)
    (didSolve : Bool) (solvedAt problemTitle problemSlug submissionId : Option String)
    (nowIso : String) : List StoredDaily :=
  let row : StoredDaily :=
    ⟨userId, today, didSolve, solvedAt, problemTitle, problemSlug, submissionId, nowIso⟩
  if didSolve then upsertDailyRow store row
  else
    match getDaily store userId today with
    | some existing =>
      if existing.did_solve then store else upsertDailyRow store row
    | none => upsertDailyRow store row

/-! ## Daily status evaluator (src/lib/leetcode.ts, timezone-aware revision)

The LeetCode fetch (`fetchLeetCodeSubmissions`) either throws (transport
error, non-2xx status, GraphQL `errors` field, malformed JSON) or yields
`response.data.recentAcSubmissionList`, which may be null.  It is
modelled as an `Except` value supplied by the environment.  A
submission's `timestamp` arrives as a decimal string and is read with
`parseInt(·, 10)`; it is modelled directly as the parsed integer.
`isTodayInTimezone(ts, tz)` compares the calendar date of `ts` in `tz`
with today's date there; the zone's date conversion is the abstract
`dateOf : Int → Int`. -/

structure Submission where
  id : String
  title : String
  titleSlug : String
  timestamp : Int
deriving Repr, DecidableEq

/-- The evaluator's result (src/lib/types.ts `DailyStatus`).  `solveTime`
is kept as the solve's Unix timestamp (the source stores its zoned ISO
rendering). -/
structure DailyStatus where
  isDone : Bool
  solveTime : Option Int
  problemTitle : Option String
  problemSlug : Option String
  submissionId : Option String
deriving Repr, DecidableEq

/-- The all-null "not done" result. -/
def notDone : DailyStatus := ⟨false, none, none, none, none⟩

/-- `checkTodayStatus` (src/lib/leetcode.ts, timezone-aware revision,
lines 273-323).  The `try` body runs on the fetch's value; the `catch`
logs and re-throws, so a fetch error propagates unchanged. -/
def checkTodayStatus (dateOf : Int → Int) (today : Int)
    (fetched : Except String (Option (List Submission))) :
    Except String DailyStatus :=
  match fetched with
  | Except.error e => Except.error e
  | Except.ok submissionsOpt =>
    match submissionsOpt with
    | none => Except.ok notDone
    | some submissions =>
      if submissions.isEmpty then Except.ok notDone
      else
        let todaySubmissions := submissions.filter (fun s => dateOf s.timestamp == today)
        match todaySubmissions with
        | [] => Except.ok notDone
        | latest :: _ =>
          Except.ok ⟨true, some latest.timestamp, some latest.title,
            some latest.titleSlug, some latest.id⟩

/-- `getAllTodaySubmissions` (src/lib/leetcode.ts, timezone-aware
revision, lines 333-363).  The `catch` swallows every fetch error and
returns the empty list. -/
def getAllTodaySubmissions (dateOf : Int → Int) (today : Int)
    (fetched : Except String (Option (List Submission))) : List Submission :=
  match fetched with
  | Except.error _ => []
  | Except.ok none => []
  | Except.ok (some submissions) =>
    if submissions.isEmpty then []
    else submissions.filter (fun s => dateOf s.timestamp == today)

/-! ## Sync orchestrator (src/app/api/sync/route.ts, timezone-aware
revision, per-user loop of `GET`)

Each user is processed independently inside `users.map` under
`Promise.all`; the per-user `try` body calls `checkTodayStatus`, then
`upsertTodayResult` (which can throw a store error), then
`getAllTodaySubmissions` + `saveSubmissions` (the latter never throws).
The two fetches and the store outcome form the user's environment. -/

structure User where
  id : String
  leetcode_username : String
deriving Repr, DecidableEq

/-- Per-user external-world outcomes for one sync invocation. -/
structure UserEnv where
  statusFetch : Except String (Option (List Submission))
  allFetch : Except String (Option (List Submission))
  upsertOutcome : Except String Unit
deriving Repr

/-- The per-user `try` body: status check, then daily upsert, then
gathering today's submissions (whose length feeds the summary). -/
def processUser (dateOf : Int → Int) (today : Int) (env : UserEnv) :
    Except String (Bool × Nat) :=
  match checkTodayStatus dateOf today env.statusFetch with
  | Except.error e => Except.error e
  | Except.ok status =>
    match env.upsertOutcome with
    | Except.error e => Except.error e
    | Except.ok _ =>
      Except.ok (status.isDone, (getAllTodaySubmissions dateOf today env.allFetch).length)

/-- One entry of the route's `results` summary. -/
structure PerUserOutcome where
  username : String
  success : Bool
  isDone : Option Bool
  error : Option String
deriving Repr, DecidableEq

/-- The per-user `try`/`catch`: a successful body yields
`{success: true, isDone}`, a thrown error is caught and recorded as
`{success: false, error}`. -/
def syncUser (dateOf : Int → Int) (today : Int) (env : UserEnv) (u : User) :
    PerUserOutcome :=
  match processUser dateOf today env with
  | Except.ok r => ⟨u.leetcode_username, true, some r.1, none⟩
  | Except.error e => ⟨u.leetcode_username, false, none, some e⟩

/-- `users.map(async user => { try … catch … })` under `Promise.all`:
the batch summary, one outcome per user. -/
def syncAllUsers (dateOf : Int → Int) (today : Int) (env : User → UserEnv)
    (users : List User) : List PerUserOutcome :=
  users.map (fun u => syncUser dateOf today (env u) u)

/-! ## Room PIN endpoints (rooms route `POST` / `PATCH`) -/

/-- JS truthiness of `room.pin` (`!room.pin`): `null`/`undefined` and the
empty string are falsy. -/
def pinFalsy : Option String → Bool
  | none => true
  | some s => s == ""

/-- The `PATCH` access check: `if (!room.pin) valid = true` else
`valid = (room.pin === pin)`; a missing candidate (`undefined`) never
equals a string. -/
def verifyPin (roomPin : Option String) (candidate : Option String) : Bool :=
  if pinFalsy roomPin then true
  else roomPin == candidate

/-- JS `String.prototype.trim()`: strip leading and trailing whitespace. -/
def jsTrim (s : String) : String :=
  ⟨((s.data.dropWhile Char.isWhitespace).reverse.dropWhile Char.isWhitespace).reverse⟩

/-- The `POST` room-creation normalisation of the request's `pin` field:
`pin: pin?.trim() || null` — absent stays null, and a trimmed-empty
string is coerced to null, otherwise the trimmed string is stored. -/
def storePinOfRequest : Option String → Option String
  | none => none
  | some s => if jsTrim s == "" then none else some (jsTrim s)

/-! ## Timezone resolver: `getSecondsUntilMidnight`
(src/lib/timezone.ts, timezone-aware revision, lines 168-172)

```
const now = getNowForTimezone(tz);
const midnight = now.plus({ days: 1 }).startOf('day');
return Math.floor(midnight.diff(now, 'seconds').seconds);
```

A zone is abstracted by the UTC instant (in milliseconds) of the local
midnight of each calendar day; luxon's `now.plus({days: 1}).startOf('day')`
is the local midnight of the day after `now`'s calendar day, DST-aware.
`Math.floor` of the fractional second difference is floor division of the
millisecond difference by 1000, which is Lean's Int `/` (Euclidean
division agrees with floor division for the positive divisor 1000). -/

structure ZoneClock where
  midnightMs : Int → Int

/-- `getSecondsUntilMidnight` for an instant `nowMs` whose local calendar
day is `today`. -/
def getSecondsUntilMidnight (z : ZoneClock) (today : Int) (nowMs : Int) : Int :=
  (z.midnightMs (today + 1) - nowMs) / 1000

/-- A concrete zone with a 25-hour day 0 (DST fall-back, e.g.
America/Los_Angeles on 2025-11-02) and 24-hour days elsewhere. -/
def fallBackZone : ZoneClock :=
  ⟨fun d => if d ≤ 0 then 86400000 * d else 90000000 + 86400000 * (d - 1)⟩

/-- A fixed-offset 24-hour-day zone. -/
def utcZone : ZoneClock := ⟨fun d => 86400000 * d⟩

/-! ## Concrete sample data for witnesses and counterexamples -/

/-- A stored confirmed-solve row for user `u1` on day 5. -/
def sampleStored : StoredDaily :=
  ⟨"u1", 5, true, some "2026-01-05T10:00:00", some "Two Sum", some "two-sum",
    some "42", "t0"⟩

/-- A user whose submission fetch fails. -/
def userA : User := ⟨"1", "alice"⟩

/-- A user whose sync succeeds. -/
def userB : User := ⟨"2", "bob"⟩

/-- Environment of a user whose status fetch throws. -/
def envBad : UserEnv := ⟨Except.error "LeetCode API returned 500", Except.ok none, Except.ok ()⟩

/-- Environment of a user whose calls all succeed (no submissions). -/
def envGood : UserEnv := ⟨Except.ok none, Except.ok none, Except.ok ()⟩

/-- Batch environment: `userA` fails, everyone else succeeds. -/
def envW : User → UserEnv := fun u => if u.id == "1" then envBad else envGood

/-- Environment whose secondary (all-submissions) fetch fails but whose
status fetch and store write succeed. -/
def envAllFail : UserEnv := ⟨Except.ok none, Except.error "fetch failed", Except.ok ()⟩

/-! # Theorems -/

/-! ## C1: the upsert guard preserves confirmed solves -/

/-- C1: if the store already holds a row for `(userId, today)` with
`did_solve = true`, then `upsertTodayResult` with `didSolve = false` is a
no-op: the store is unchanged, and the lookup still returns the original
row with all its metadata. -/
theorem upsertTodayResult_noop_on_confirmed_solve
    (store : List StoredDaily) (u : String) (d : Int)
    (sA pT pS sid : Option String) (now : String) (r : StoredDaily)
    (hr : getDaily store u d = some r) (hs : r.did_solve = true) :
    upsertTodayResult store u d false sA pT pS sid now = store ∧
    getDaily (upsertTodayResult store u d false sA pT pS sid now) u d = some r := by
  have h1 : upsertTodayResult store u d false sA pT pS sid now = store := by
    unfold upsertTodayResult
    simp [hr, hs]
  exact ⟨h1, by rw [h1, hr]⟩

/-- Witness for C1 at a concrete one-row store. -/
theorem upsertTodayResult_noop_on_confirmed_solve_wit :
    getDaily [sampleStored] "u1" 5 = some sampleStored ∧
    sampleStored.did_solve = true ∧
    (upsertTodayResult [sampleStored] "u1" 5 false none none none none "t1"
        = [sampleStored] ∧
      getDaily (upsertTodayResult [sampleStored] "u1" 5 false none none none none "t1")
        "u1" 5 = some sampleStored) :=
  ⟨by decide, by decide,
    upsertTodayResult_noop_on_confirmed_solve [sampleStored] "u1" 5
      none none none none "t1" sampleStored (by decide) (by decide)⟩

/-! ## C2: an explicit `today: false` row does not break the current streak -/

/-- C2 counterexample: with history `[today: false, yesterday: true]`
(`today = 10`), `calculateCurrentStreak` returns 1, not 0: the recorded
miss for today is skipped and the count anchors at yesterday. -/
theorem currentStreak_today_false_not_zero :
    calculateCurrentStreak 10 [mkRow 10 false, mkRow 9 true] = 1 ∧
    calculateCurrentStreak 10 [mkRow 10 false, mkRow 9 true] ≠ 0 := by decide

/-- When today is not solved, the walk skips every row dated `today`, so
it agrees with the walk over the history without those rows. -/
theorem streakWalk_false_filter (today : Int) (l : List DailyResultRow) :
    ∀ (cd : Int) (s : Nat),
    streakWalk false today l cd s =
      streakWalk false today (l.filter (fun r => !(r.date == today))) cd s := by
  induction l with
  | nil => intro cd s; rfl
  | cons r rest ih =>
    intro cd s
    by_cases h : r.date == today
    · simp [streakWalk, List.filter, h, ih]
    · simp only [List.filter, h, Bool.not_false]
      simp [streakWalk, h, ih]

/-- C2 amended: a row for today with `solved = false` is skipped rather
than breaking the streak — `calculateCurrentStreak` returns exactly what
it would return on the same history with every today row removed (the
pending-fallback count from yesterday), so it is 0 only when the chain
ending yesterday is empty. -/
theorem currentStreak_skips_recorded_today_miss (today : Int)
    (results : List DailyResultRow)
    (hall : ∀ r ∈ results, r.date = today → r.did_solve = false) :
    calculateCurrentStreak today results =
      calculateCurrentStreak today (results.filter (fun r => !(r.date == today))) := by
  by_cases hres : results.isEmpty
  · cases results with
    | nil => rfl
    | cons a rest => simp [List.isEmpty] at hres
  · have hsolved :
        ((results.find? fun r => r.date == today).map (·.did_solve)).getD false = false := by
      cases hf : results.find? (fun r => r.date == today) with
      | none => rfl
      | some r =>
        have hmem := List.mem_of_find?_eq_some hf
        have hdate : r.date = today := by
          have := List.find?_some hf
          simpa using this
        simp [hall r hmem hdate]
    have hfindF :
        ((results.filter (fun r => !(r.date == today))).find?
          (fun r => r.date == today)) = none := by
      apply List.find?_eq_none.mpr
      intro x hx
      have := List.of_mem_filter hx
      simpa using this
    have hL : calculateCurrentStreak today results =
        streakWalk false today results (today - 1) 0 := by
      simp [calculateCurrentStreak, hres, hsolved]
    by_cases hF : (results.filter (fun r => !(r.date == today))).isEmpty
    · have hFnil : results.filter (fun r => !(r.date == today)) = [] :=
        List.isEmpty_iff.mp hF
      rw [hL, streakWalk_false_filter today results (today - 1) 0, hFnil]
      rfl
    · have hR : calculateCurrentStreak today (results.filter (fun r => !(r.date == today))) =
          streakWalk false today (results.filter (fun r => !(r.date == today)))
            (today - 1) 0 := by
        simp [calculateCurrentStreak, hF, hfindF]
      rw [hL, hR]
      exact streakWalk_false_filter today results (today - 1) 0

/-- Witness for C2's amended theorem at the counterexample history. -/
theorem currentStreak_skips_recorded_today_miss_wit :
    (∀ r ∈ [mkRow 10 false, mkRow 9 true], r.date = 10 → r.did_solve = false) ∧
    calculateCurrentStreak 10 [mkRow 10 false, mkRow 9 true] =
      calculateCurrentStreak 10
        ([mkRow 10 false, mkRow 9 true].filter (fun r => !(r.date == 10))) :=
  ⟨by decide, currentStreak_skips_recorded_today_miss 10 _ (by decide)⟩

/-! ## C3: the evaluator propagates fetch errors -/

/-- C3: for every zone date function, today value and fetch error (transport
error, non-2xx status, or malformed payload all surface as a thrown fetch
error), `checkTodayStatus` propagates the error unchanged to its caller and
in particular never returns an `isDone = false` result in its place. -/
theorem checkTodayStatus_propagates_fetch_error
    (dateOf : Int → Int) (today : Int) (e : String) :
    checkTodayStatus dateOf today (Except.error e) = Except.error e ∧
    ∀ st : DailyStatus,
      checkTodayStatus dateOf today (Except.error e) ≠ Except.ok st := by
  refine ⟨rfl, ?_⟩
  intro st h
  simp [checkTodayStatus] at h

/-- Witness for C3 at a concrete error. -/
theorem checkTodayStatus_propagates_fetch_error_wit :
    checkTodayStatus (fun t => t) 0 (Except.error "LeetCode API returned 500")
        = Except.error "LeetCode API returned 500" ∧
    ∀ st : DailyStatus,
      checkTodayStatus (fun t => t) 0 (Except.error "LeetCode API returned 500")
        ≠ Except.ok st :=
  checkTodayStatus_propagates_fetch_error (fun t => t) 0 "LeetCode API returned 500"

/-! ## C4: a missing today row anchors the count at yesterday -/

/-- C4: when the history (descending, as queried) has no row for today,
holds `solved = true` rows for yesterday and the day before, and the next
row — if it is for the day before that — is `solved = false`,
`calculateCurrentStreak` returns 2: the absent today row does not break
the streak, it anchors the count at yesterday. -/
theorem currentStreak_pending_counts_two (today : Int)
    (a1 a2 a3 a4 b1 b2 b3 b4 : Option String) (rest : List DailyResultRow)
    (hrest : ∀ r ∈ rest, r.date ≠ today)
    (hnext : ∀ r3, rest.head? = some r3 → r3.date = today - 3 → r3.did_solve = false) :
    calculateCurrentStreak today
      (⟨today - 1, true, a1, a2, a3, a4⟩ :: ⟨today - 2, true, b1, b2, b3, b4⟩ :: rest)
      = 2 := by
  have h1 : ((today - 1 : Int) == today) = false := by
    simp only [beq_eq_false_iff_ne, ne_eq]
    omega
  have h2 : ((today - 2 : Int) == today) = false := by
    simp only [beq_eq_false_iff_ne, ne_eq]
    omega
  have hfind : (rest.find? (fun r => r.date == today)) = none := by
    apply List.find?_eq_none.mpr
    intro x hx
    simpa using hrest x hx
  have hL : calculateCurrentStreak today
      (⟨today - 1, true, a1, a2, a3, a4⟩ :: ⟨today - 2, true, b1, b2, b3, b4⟩ :: rest)
      = streakWalk false today
        (⟨today - 1, true, a1, a2, a3, a4⟩ :: ⟨today - 2, true, b1, b2, b3, b4⟩ :: rest)
        (today - 1) 0 := by
    simp [calculateCurrentStreak, h1, h2, hfind]
  rw [hL]
  have hw1 : streakWalk false today
      (⟨today - 1, true, a1, a2, a3, a4⟩ :: ⟨today - 2, true, b1, b2, b3, b4⟩ :: rest)
      (today - 1) 0
      = streakWalk false today (⟨today - 2, true, b1, b2, b3, b4⟩ :: rest) (today - 1 - 1) 1 := by
    simp [streakWalk, h1]
  have hd2 : ((today - 2 : Int) != (today - 1 - 1)) = false := by
    simp only [bne_eq_false_iff_eq]
    omega
  have hw2 : streakWalk false today (⟨today - 2, true, b1, b2, b3, b4⟩ :: rest)
      (today - 1 - 1) 1
      = streakWalk false today rest (today - 1 - 1 - 1) 2 := by
    simp only [streakWalk, h2, Bool.not_false, Bool.true_and, hd2, Bool.false_eq_true,
      if_false, if_true]
  rw [hw1, hw2]
  cases rest with
  | nil => rfl
  | cons r3 rs =>
    have hr3 : (r3.date == today) = false := by
      simpa using hrest r3 (List.mem_cons_self r3 rs)
    by_cases hd : r3.date = today - 3
    · have hne : (r3.date != (today - 1 - 1 - 1)) = false := by
        simp only [bne_eq_false_iff_eq]
        omega
      have hns : r3.did_solve = false := hnext r3 rfl hd
      simp [streakWalk, hr3, hne, hns]
    · have hne : (r3.date != (today - 1 - 1 - 1)) = true := by
        simp only [bne_iff_ne, ne_eq]
        omega
      simp [streakWalk, hr3, hne]

/-- Witness for C4 with `today = 10` and history `[9: true, 8: true, 7: false]`. -/
theorem currentStreak_pending_counts_two_wit :
    (∀ r ∈ [mkRow 7 false], r.date ≠ (10 : Int)) ∧
    (∀ r3, [mkRow 7 false].head? = some r3 → r3.date = 10 - 3 → r3.did_solve = false) ∧
    calculateCurrentStreak 10 [mkRow 9 true, mkRow 8 true, mkRow 7 false] = 2 :=
  ⟨by decide, by decide,
    currentStreak_pending_counts_two 10 none none none none none none none none
      [mkRow 7 false] (by decide) (by decide)⟩

/-! ## C5: the longest-streak scan -/

/-- The implementation's scan state equals the maximum over the spec-side
counter sequence, relative to the running maximum. -/
theorem longestLoop_eq_counters (l : List DailyResultRow) :
    ∀ (m c : Nat) (ld : Option Int),
    longestLoop l m c ld = max m ((streakCounters ld c l).foldr max 0) := by
  induction l with
  | nil => intro m c ld; simp [longestLoop, streakCounters]
  | cons r rest ih =>
    intro m c ld
    by_cases hs : r.did_solve
    · simp only [longestLoop, streakCounters, hs, if_true, List.foldr, ih]
      exact Nat.max_assoc m _ _
    · simp only [longestLoop, streakCounters, hs, Bool.false_eq_true, if_false, List.foldr, ih]
      simp [Nat.zero_max]

/-- C5: `calculateLongestStreak` computes exactly the claim's description —
the maximum over a running counter that resets to 0 on any `solved=false`
row and restarts at 1 on a `solved=true` row whose date is not exactly one
day after the previous row's date — and on the rows
`[day1: true, day2: true, day3: false, day4: true]` it returns 2. -/
theorem calculateLongestStreak_spec :
    (∀ results : List DailyResultRow,
      calculateLongestStreak results = longestStreakSpec results) ∧
    calculateLongestStreak [mkRow 1 true, mkRow 2 true, mkRow 3 false, mkRow 4 true] = 2 := by
  constructor
  · intro results
    cases results with
    | nil => rfl
    | cons r rest =>
      show longestLoop (r :: rest) 0 0 none = longestStreakSpec (r :: rest)
      rw [longestLoop_eq_counters]
      simp [longestStreakSpec, Nat.zero_max]
  · decide

/-! ## C6: range of `getSecondsUntilMidnight` -/

/-- C6 counterexample: at the exact local midnight opening a 25-hour
fall-back day (a DST transition instant), `getSecondsUntilMidnight`
returns 90000, outside `[0, 86400)`. -/
theorem getSecondsUntilMidnight_dst_exceeds_bound :
    fallBackZone.midnightMs 0 ≤ 0 ∧ (0 : Int) < fallBackZone.midnightMs 1 ∧
    getSecondsUntilMidnight fallBackZone 0 0 = 90000 ∧
    ¬ getSecondsUntilMidnight fallBackZone 0 0 < 86400 := by decide

/-- C6 amended: at every instant of local day `d`, `getSecondsUntilMidnight`
is nonnegative and at most the length in seconds of that local day — so at
most 86400 on a 24-hour day (reached exactly at local midnight) and at most
90000 when the day spans a DST fall-back; the half-open bound `[0, 86400)`
does not hold in general. -/
theorem getSecondsUntilMidnight_bounds (z : ZoneClock) (d nowMs : Int)
    (h1 : z.midnightMs d ≤ nowMs) (h2 : nowMs < z.midnightMs (d + 1)) :
    0 ≤ getSecondsUntilMidnight z d nowMs ∧
    getSecondsUntilMidnight z d nowMs ≤ (z.midnightMs (d + 1) - z.midnightMs d) / 1000 ∧
    (z.midnightMs (d + 1) - z.midnightMs d ≤ 90000000 →
      getSecondsUntilMidnight z d nowMs ≤ 90000) := by
  unfold getSecondsUntilMidnight
  refine ⟨Int.ediv_nonneg (by omega) (by norm_num),
    Int.ediv_le_ediv (by norm_num) (by omega), ?_⟩
  intro hle
  calc (z.midnightMs (d + 1) - nowMs) / 1000
      ≤ 90000000 / 1000 := Int.ediv_le_ediv (by norm_num) (by omega)
    _ = 90000 := by norm_num

/-- Witness for C6's amended theorem: noon of a 24-hour day. -/
theorem getSecondsUntilMidnight_bounds_wit :
    utcZone.midnightMs 0 ≤ 43200000 ∧ (43200000 : Int) < utcZone.midnightMs 1 ∧
    (0 ≤ getSecondsUntilMidnight utcZone 0 43200000 ∧
      getSecondsUntilMidnight utcZone 0 43200000
        ≤ (utcZone.midnightMs 1 - utcZone.midnightMs 0) / 1000 ∧
      (utcZone.midnightMs 1 - utcZone.midnightMs 0 ≤ 90000000 →
        getSecondsUntilMidnight utcZone 0 43200000 ≤ 90000)) :=
  ⟨by decide, by decide,
    getSecondsUntilMidnight_bounds utcZone 0 43200000 (by decide) (by decide)⟩

/-! ## C7: the sync batch isolates per-user failures -/

/-- C7: in the sync route's batch, when processing a user throws (status
fetch or store write), the error is caught and recorded as that user's
outcome with `success = false` and the error message, while the batch
still returns one outcome per user (every user contributes its own
outcome, computed only from its own environment). -/
theorem syncRoute_isolates_user_failures (dateOf : Int → Int) (today : Int)
    (env : User → UserEnv) (users : List User) (u : User) (e : String)
    (hu : u ∈ users) (he : processUser dateOf today (env u) = Except.error e) :
    (syncAllUsers dateOf today env users).length = users.length ∧
    syncUser dateOf today (env u) u ∈ syncAllUsers dateOf today env users ∧
    (syncUser dateOf today (env u) u).success = false ∧
    (syncUser dateOf today (env u) u).error = some e ∧
    ∀ v ∈ users, syncUser dateOf today (env v) v ∈ syncAllUsers dateOf today env users := by
  refine ⟨List.length_map users _, ?_, ?_, ?_, ?_⟩
  · exact List.mem_map_of_mem _ hu
  · simp [syncUser, he]
  · simp [syncUser, he]
  · intro v hv
    exact List.mem_map_of_mem _ hv

/-- Witness for C7: a two-user batch where `userA`'s fetch throws and
`userB` succeeds. -/
theorem syncRoute_isolates_user_failures_wit :
    userA ∈ [userA, userB] ∧
    processUser (fun t => t) 0 (envW userA) = Except.error "LeetCode API returned 500" ∧
    ((syncAllUsers (fun t => t) 0 envW [userA, userB]).length = [userA, userB].length ∧
      syncUser (fun t => t) 0 (envW userA) userA ∈ syncAllUsers (fun t => t) 0 envW [userA, userB] ∧
      (syncUser (fun t => t) 0 (envW userA) userA).success = false ∧
      (syncUser (fun t => t) 0 (envW userA) userA).error = some "LeetCode API returned 500" ∧
      ∀ v ∈ [userA, userB],
        syncUser (fun t => t) 0 (envW v) v ∈ syncAllUsers (fun t => t) 0 envW [userA, userB]) :=
  ⟨by decide, rfl,
    syncRoute_isolates_user_failures (fun t => t) 0 envW [userA, userB] userA
      "LeetCode API returned 500" (by decide) rfl⟩

/-! ## C8: the group access check -/

/-- C8: the PATCH access check accepts every candidate when the room has
no configured PIN, and with a configured (nonempty) PIN `p` it accepts a
candidate exactly when the candidate equals `p`; in particular PIN
`"1234"` rejects `"0000"` and accepts `"1234"`. -/
theorem verifyPin_matches_secret (p : String) (c : Option String) (hp : p ≠ "") :
    (∀ cand : Option String, verifyPin none cand = true) ∧
    (verifyPin (some p) c = true ↔ c = some p) ∧
    verifyPin (some "1234") (some "0000") = false ∧
    verifyPin (some "1234") (some "1234") = true := by
  refine ⟨fun cand => rfl, ?_, by decide, by decide⟩
  simp only [verifyPin, pinFalsy]
  rw [if_neg (by simpa using hp)]
  constructor
  · intro h
    exact (beq_iff_eq.mp h).symm
  · intro h
    exact beq_iff_eq.mpr h.symm

/-- Witness for C8 with PIN `"1234"` and candidate `"0000"`. -/
theorem verifyPin_matches_secret_wit :
    ("1234" : String) ≠ "" ∧
    ((∀ cand : Option String, verifyPin none cand = true) ∧
      (verifyPin (some "1234") (some "0000") = true ↔ some "0000" = some "1234") ∧
      verifyPin (some "1234") (some "0000") = false ∧
      verifyPin (some "1234") (some "1234") = true) :=
  ⟨by decide, verifyPin_matches_secret "1234" (some "0000") (by decide)⟩

/-! ## C9: whitespace-only PINs are stored as null -/

/-- C9: a room-creation request whose PIN field trims to the empty string
stores no PIN (`pin?.trim() || null` coerces it to null), so the access
check then accepts every candidate, including ones differing from the
original string. -/
theorem emptyPin_stored_null_accepts_all (s : String) (h : jsTrim s = "") :
    storePinOfRequest (some s) = none ∧
    ∀ cand : Option String, verifyPin (storePinOfRequest (some s)) cand = true := by
  have h1 : storePinOfRequest (some s) = none := by
    simp [storePinOfRequest, h]
  exact ⟨h1, fun cand => by rw [h1]; rfl⟩

/-- Witness for C9 with a whitespace-only PIN field. -/
theorem emptyPin_stored_null_accepts_all_wit :
    jsTrim "   " = "" ∧
    (storePinOfRequest (some "   ") = none ∧
      ∀ cand : Option String, verifyPin (storePinOfRequest (some "   ")) cand = true) :=
  ⟨by decide, emptyPin_stored_null_accepts_all "   " (by decide)⟩

/-! ## C10: the secondary submissions fetch never fails a user -/

/-- C10: `getAllTodaySubmissions` swallows every fetch error and returns
the empty list, so in the sync loop a user whose status check and store
write succeed is still recorded as `success = true` even when the
secondary full-day submissions fetch fails. -/
theorem getAllTodaySubmissions_swallows_errors
    (dateOf : Int → Int) (today : Int) (e : String) (env : UserEnv) (u : User)
    (hall : env.allFetch = Except.error e)
    (hup : env.upsertOutcome = Except.ok ())
    (hok : ∃ st, checkTodayStatus dateOf today env.statusFetch = Except.ok st) :
    getAllTodaySubmissions dateOf today env.allFetch = [] ∧
    (syncUser dateOf today env u).success = true := by
  refine ⟨by rw [hall]; rfl, ?_⟩
  obtain ⟨st, hst⟩ := hok
  simp [syncUser, processUser, hst, hup]

/-- Witness for C10: a user whose secondary fetch fails but whose status
fetch and upsert succeed. -/
theorem getAllTodaySubmissions_swallows_errors_wit :
    envAllFail.allFetch = Except.error "fetch failed" ∧
    envAllFail.upsertOutcome = Except.ok () ∧
    checkTodayStatus (fun t => t) 0 envAllFail.statusFetch = Except.ok notDone ∧
    (getAllTodaySubmissions (fun t => t) 0 envAllFail.allFetch = [] ∧
      (syncUser (fun t => t) 0 envAllFail userB).success = true) :=
  ⟨rfl, rfl, rfl,
    getAllTodaySubmissions_swallows_errors (fun t => t) 0 "fetch failed" envAllFail userB
      rfl rfl ⟨notDone, rfl⟩⟩
